import Mathlib

/-
  Verification of the path-selection core of `backend/main.py`
  (transit-route proxy: normalizer, path scorer, path selector,
  mapObj extraction).

  Python dynamic values are embedded as `PyVal` (the JSON-like fragment
  the program manipulates: None, int, str, list, dict). Python strings
  are `List Char`. Fallible Python operations (dict access on non-dicts,
  `int()` conversion, iteration, subscripting) are embedded in
  `Except PyErr`; `raise HTTPException(status, detail)` is
  `PyErr.httpError status detail`.
-/

namespace MapDemo

/-- Python runtime / HTTP errors that the embedded code can raise. -/
inductive PyErr where
  | httpError : Nat → List Char → PyErr
  | keyError : PyErr
  | typeError : PyErr
  | attrError : PyErr
  | valueError : PyErr
  | indexError : PyErr
deriving DecidableEq

/-- The fragment of Python values the program manipulates. Dicts are
association lists with string keys (lookup takes the first binding). -/
inductive PyVal where
  | none : PyVal
  | int : Int → PyVal
  | str : List Char → PyVal
  | list : List PyVal → PyVal
  | dict : List (List Char × PyVal) → PyVal

/-- Python truthiness (`bool(v)`) on the embedded fragment. -/
def pyTruthy : PyVal → Bool
  | PyVal.none => false
  | PyVal.int n => n != 0
  | PyVal.str s => !s.isEmpty
  | PyVal.list l => !l.isEmpty
  | PyVal.dict l => !l.isEmpty

/-- Characters Python's `str.strip()` removes: the Unicode whitespace
set recognised by `str.isspace()`. -/
def pyIsSpace (c : Char) : Bool :=
  decide ((9 ≤ c.toNat ∧ c.toNat ≤ 13) ∨ (28 ≤ c.toNat ∧ c.toNat ≤ 31) ∨
    c.toNat = 32 ∨ c.toNat = 133 ∨ c.toNat = 160 ∨ c.toNat = 5760 ∨
    (8192 ≤ c.toNat ∧ c.toNat ≤ 8202) ∨ c.toNat = 8232 ∨ c.toNat = 8233 ∨
    c.toNat = 8239 ∨ c.toNat = 8287 ∨ c.toNat = 12288)

/-- Python `s.strip()`: drop whitespace from both ends. -/
def pyStrip (s : List Char) : List Char :=
  ((s.dropWhile pyIsSpace).reverse.dropWhile pyIsSpace).reverse

/-- `norm` from `backend/main.py` (string case): strip, then the four
sequential `s.replace(ch, "")` calls for "(", ")", " ", "번". -/
def norm (s : List Char) : List Char :=
  if s = [] then []
  else
    let s1 := pyStrip s
    let s2 := s1.filter (fun c => c != '(')
    let s3 := s2.filter (fun c => c != ')')
    let s4 := s3.filter (fun c => c != ' ')
    s4.filter (fun c => c != '번')

/-- `norm` at its full Python signature `Optional[str] -> str`
(`None` is falsy, so it yields the empty string). -/
def normOpt : Option (List Char) → List Char
  | Option.none => []
  | Option.some s => norm s

/-- `norm` applied to an arbitrary Python value, as the source does with
station names: falsy values yield "", truthy strings are normalized, and
any other truthy value raises (`.strip()` on a non-string). -/
def normPy (v : PyVal) : Except PyErr (List Char) :=
  if pyTruthy v then
    match v with
    | PyVal.str s => Except.ok (norm s)
    | _ => Except.error PyErr.attrError
  else Except.ok []

/-- Python's substring test `a in b` on strings. -/
def pyIn (a b : List Char) : Bool :=
  (List.range (b.length + 1)).any (fun i => a.isPrefixOf (b.drop i))

def isDigitB (c : Char) : Bool := decide (48 ≤ c.toNat ∧ c.toNat ≤ 57)

def digitsVal (l : List Char) : Nat :=
  l.foldl (fun a c => a * 10 + (c.toNat - 48)) 0

/-- Parse an all-digit, non-empty run. -/
def parseDigits (l : List Char) : Option Nat :=
  if l = [] then Option.none
  else if l.all isDigitB then Option.some (digitsVal l) else Option.none

/-- Python `int(s)` on a string: strip whitespace, optional sign, digits
(underscore separators are not modelled; no claim involves them). -/
def parseIntPy (s : List Char) : Option Int :=
  match pyStrip s with
  | '+' :: rest => (parseDigits rest).map Int.ofNat
  | '-' :: rest => (parseDigits rest).map (fun n => -(Int.ofNat n))
  | t => (parseDigits t).map Int.ofNat

/-- Python `d.get(k, dflt)`: attribute error on non-dicts. -/
def pyGetD (d : PyVal) (k : List Char) (dflt : PyVal) : Except PyErr PyVal :=
  match d with
  | PyVal.dict xs => Except.ok ((List.lookup k xs).getD dflt)
  | _ => Except.error PyErr.attrError

/-- Python subscript `d[k]` with a string key: `KeyError` when the key is
missing, `TypeError` on every non-dict value. -/
def pySub (d : PyVal) (k : List Char) : Except PyErr PyVal :=
  match d with
  | PyVal.dict xs =>
    match List.lookup k xs with
    | Option.some v => Except.ok v
    | Option.none => Except.error PyErr.keyError
  | _ => Except.error PyErr.typeError

/-- Python iteration `for x in v`: lists yield elements, strings yield
one-character strings, dicts yield their keys, the rest raise. -/
def pyIter : PyVal → Except PyErr (List PyVal)
  | PyVal.list l => Except.ok l
  | PyVal.str s => Except.ok (s.map (fun c => PyVal.str [c]))
  | PyVal.dict xs => Except.ok (xs.map (fun kv => PyVal.str kv.1))
  | _ => Except.error PyErr.typeError

/-- Python `int(v)` on the embedded fragment. -/
def pyToInt : PyVal → Except PyErr Int
  | PyVal.int n => Except.ok n
  | PyVal.str s =>
    match parseIntPy s with
    | Option.some n => Except.ok n
    | Option.none => Except.error PyErr.valueError
  | _ => Except.error PyErr.typeError

/-- Python `v[0]`. -/
def pyIdx0 : PyVal → Except PyErr PyVal
  | PyVal.list (x :: _) => Except.ok x
  | PyVal.list [] => Except.error PyErr.indexError
  | PyVal.str (c :: _) => Except.ok (PyVal.str [c])
  | PyVal.str [] => Except.error PyErr.indexError
  | PyVal.dict _ => Except.error PyErr.keyError
  | _ => Except.error PyErr.typeError

def squote : Char := Char.ofNat 39
def lbraceC : Char := Char.ofNat 123
def rbraceC : Char := Char.ofNat 125

mutual
/-- Python `repr(v)` on the embedded fragment. -/
def pyReprOf : PyVal → List Char
  | PyVal.none => "None".data
  | PyVal.int n => (toString n).data
  | PyVal.str s => squote :: (s ++ [squote])
  | PyVal.list xs => '[' :: (pyReprSeq xs ++ [']'])
  | PyVal.dict xs => lbraceC :: (pyReprItems xs ++ [rbraceC])

def pyReprSeq : List PyVal → List Char
  | [] => []
  | [x] => pyReprOf x
  | x :: y :: xs => pyReprOf x ++ ',' :: ' ' :: pyReprSeq (y :: xs)

def pyReprItems : List (List Char × PyVal) → List Char
  | [] => []
  | [(k, v)] => squote :: (k ++ squote :: ':' :: ' ' :: pyReprOf v)
  | (k, v) :: kv :: xs =>
    squote :: (k ++ squote :: ':' :: ' ' :: pyReprOf v) ++
      ',' :: ' ' :: pyReprItems (kv :: xs)
end

/-- Python `str(v)`: identity on strings, `repr` otherwise. -/
def pyStrOf (v : PyVal) : List Char :=
  match v with
  | PyVal.str s => s
  | _ => pyReprOf v

/-- Python `v == n` for an int literal `n` (no numeric coercions arise in
the embedded fragment). -/
def pyEqInt (v : PyVal) (n : Int) : Bool :=
  match v with
  | PyVal.int m => m == n
  | _ => false

/- ----- path scoring (`score_path_for_ride`, main.py lines 81-144) ----- -/

/-- Candidate names for one lane descriptor, per trafficType
(lines 109-122): for buses (2) `busNo` then `name`, for subways (1)
`name`; only truthy values are kept. -/
def laneCands (ttype lane : PyVal) : Except PyErr (List PyVal) := do
  let c1 ←
    if pyEqInt ttype 2 then do
      let bus_no ← pyGetD lane "busNo".data PyVal.none
      let name ← pyGetD lane "name".data PyVal.none
      pure ((if pyTruthy bus_no then [bus_no] else []) ++
            (if pyTruthy name then [name] else []))
    else pure []
  let c2 ←
    if pyEqInt ttype 1 then do
      let name ← pyGetD lane "name".data PyVal.none
      pure (if pyTruthy name then [name] else [])
    else pure []
  pure (c1 ++ c2)

/-- The inner candidate loop (lines 124-128): the `break` after `score
+= 10` exits this loop only, so one lane contributes 10 at most once. -/
def laneHit (rn : List Char) (cands : List PyVal) : Bool :=
  cands.any (fun c => rn != [] && pyIn rn (norm (pyStrOf c)))

/-- Ride score contributed by one leg (lines 103-128): skip legs whose
`trafficType` is not 1 or 2, then scan every lane of the leg. -/
def rideScoreLeg (rn : List Char) (sp : PyVal) : Except PyErr Int := do
  let ttype ← pyGetD sp "trafficType".data PyVal.none
  if pyEqInt ttype 1 ∨ pyEqInt ttype 2 then do
    let lanesRaw ← pyGetD sp "lane".data (PyVal.list [])
    let lanes ← pyIter (if pyTruthy lanesRaw then lanesRaw else PyVal.list [])
    lanes.foldlM
      (fun acc lane => do
        let cands ← laneCands ttype lane
        pure (acc + if laneHit rn cands then (10 : Int) else 0))
      0
  else pure 0

/-- Ride score over all legs (the outer loop of lines 103-128). -/
def rideScore (rn : List Char) (subs : List PyVal) : Except PyErr Int :=
  subs.foldlM (fun acc sp => do
    let x ← rideScoreLeg rn sp
    pure (acc + x)) 0

/-- Normalized station names of one leg (lines 132-137):
`passStopList` (or `{}` when falsy), then `stations` / `station` with the
`or` chain, then each stop's `stationName or ""` normalized. -/
def stationNamesLeg (sp : PyVal) : Except PyErr (List (List Char)) := do
  let passRaw ← pyGetD sp "passStopList".data PyVal.none
  let pass_list := if pyTruthy passRaw then passRaw else PyVal.dict []
  let st1 ← pyGetD pass_list "stations".data (PyVal.list [])
  let stationsV ←
    if pyTruthy st1 then pure st1
    else do
      let st2 ← pyGetD pass_list "station".data (PyVal.list [])
      pure (if pyTruthy st2 then st2 else PyVal.list [])
  let stations ← pyIter stationsV
  stations.foldlM
    (fun acc st => do
      let nameRaw ← pyGetD st "stationName".data PyVal.none
      let n ← normPy (if pyTruthy nameRaw then nameRaw else PyVal.str [])
      pure (acc ++ [n]))
    []

/-- The pooled station-name list of lines 131-137. -/
def stationNames (subs : List PyVal) : Except PyErr (List (List Char)) :=
  subs.foldlM (fun acc sp => do
    let ns ← stationNamesLeg sp
    pure (acc ++ ns)) []

/-- `score_path_for_ride(path, ride, board, drop)` (lines 81-144).
Returns `(score, totalTime)`; `totalTime` is
`int(info.get("totalTime") or 10**9)`. -/
def score_path_for_ride (path : PyVal) (ride board drop : List Char) :
    Except PyErr (Int × Int) := do
  let ride_n := norm ride
  let board_n := norm board
  let drop_n := norm drop
  let info ← pyGetD path "info".data (PyVal.dict [])
  let ttRaw ← pyGetD info "totalTime".data PyVal.none
  let total_time ← pyToInt (if pyTruthy ttRaw then ttRaw else PyVal.int 1000000000)
  let spRaw ← pyGetD path "subPath".data (PyVal.list [])
  let sub_paths ← pyIter (if pyTruthy spRaw then spRaw else PyVal.list [])
  let s1 ← if ride_n ≠ [] then rideScore ride_n sub_paths else pure (0 : Int)
  let names ← stationNames sub_paths
  let s2 : Int := if board_n ≠ [] ∧ names.any (fun s => pyIn board_n s) then 5 else 0
  let s3 : Int := if drop_n ≠ [] ∧ names.any (fun s => pyIn drop_n s) then 5 else 0
  pure (s1 + s2 + s3, total_time)

/- ----- path selection (`select_path_for_ride`, lines 146-190) ----- -/

def msgMalformed : List Char := "ODSAY 응답 포맷이 예상과 다릅니다 (path 누락).".data
def msgNoRoute : List Char := "ODSAY: 경로를 찾지 못했습니다.".data
def msgNoMapObj : List Char := "선택한 경로에 mapObj 가 없습니다.".data

/-- The `try: paths = data["result"]["path"] except (KeyError, TypeError)`
of lines 157-158: `pySub` raises exactly those two error kinds, so the
caught computation is an `Option`. -/
def locatePaths (data : PyVal) : Option PyVal :=
  match pySub data "result".data with
  | Except.error _ => Option.none
  | Except.ok r =>
    match pySub r "path".data with
    | Except.error _ => Option.none
    | Except.ok p => Option.some p

/-- The best-tracking loop of lines 169-179: fold the scored paths,
replacing the current best exactly when the score is strictly greater or
the score ties and the time is strictly smaller. -/
def runBest (r b d : List Char) (ps : List PyVal) :
    Except PyErr (Option (Int × Int × PyVal)) :=
  ps.foldlM
    (fun best p => do
      let st ← score_path_for_ride p r b d
      match best with
      | Option.none => pure (Option.some (st.1, st.2, p))
      | Option.some bt =>
        if st.1 > bt.1 ∨ (st.1 = bt.1 ∧ st.2 < bt.2.1) then
          pure (Option.some (st.1, st.2, p))
        else pure (Option.some bt))
    Option.none

/-- `select_path_for_ride(data, ride, board, drop)` (lines 146-190). -/
def select_path_for_ride (data : PyVal) (r b d : List Char) :
    Except PyErr PyVal := do
  match locatePaths data with
  | Option.none => Except.error (PyErr.httpError 500 msgMalformed)
  | Option.some paths_v =>
    if pyTruthy paths_v then
      if r = [] ∧ b = [] ∧ d = [] then pyIdx0 paths_v
      else do
        let paths ← pyIter paths_v
        let best ← runBest r b d paths
        match best with
        | Option.none => pyIdx0 paths_v
        | Option.some bt => if bt.1 = 0 then pyIdx0 paths_v else pure bt.2.2
    else Except.error (PyErr.httpError 404 msgNoRoute)

/-- `select_path_for_ride` instrumented with the number of
`score_path_for_ride` invocations, to state the claims about when the
Scorer is (not) invoked. Same control flow as `select_path_for_ride`. -/
def runBestN (r b d : List Char) (ps : List PyVal) :
    Except PyErr (Option (Int × Int × PyVal) × Nat) :=
  ps.foldlM
    (fun acc p => do
      let st ← score_path_for_ride p r b d
      let best2 :=
        match acc.1 with
        | Option.none => Option.some (st.1, st.2, p)
        | Option.some bt =>
          if st.1 > bt.1 ∨ (st.1 = bt.1 ∧ st.2 < bt.2.1) then
            Option.some (st.1, st.2, p)
          else Option.some bt
      pure (best2, acc.2 + 1))
    (Option.none, 0)

/-- Counting variant of `select_path_for_ride`: returns the selected
route together with how many times the Scorer ran. -/
def select_count (data : PyVal) (r b d : List Char) :
    Except PyErr (PyVal × Nat) := do
  match locatePaths data with
  | Option.none => Except.error (PyErr.httpError 500 msgMalformed)
  | Option.some paths_v =>
    if pyTruthy paths_v then
      if r = [] ∧ b = [] ∧ d = [] then do
        let p0 ← pyIdx0 paths_v
        pure (p0, 0)
      else do
        let paths ← pyIter paths_v
        let bn ← runBestN r b d paths
        match bn.1 with
        | Option.none => do
          let p0 ← pyIdx0 paths_v
          pure (p0, bn.2)
        | Option.some bt =>
          if bt.1 = 0 then do
            let p0 ← pyIdx0 paths_v
            pure (p0, bn.2)
          else pure (bt.2.2, bn.2)
    else Except.error (PyErr.httpError 404 msgNoRoute)

/- ----- mapObj extraction (`get_map_obj`, lines 217-222) ----- -/

/-- The mapObj extraction step of `get_map_obj` (lines 218-222):
`info = path.get("info", {})`, `map_obj = info.get("mapObj")`, raise
status 500 when `map_obj` is falsy, else return it unchanged. -/
def extract_map_obj (path : PyVal) : Except PyErr PyVal := do
  let info ← pyGetD path "info".data (PyVal.dict [])
  let map_obj ← pyGetD info "mapObj".data PyVal.none
  if pyTruthy map_obj then pure map_obj
  else Except.error (PyErr.httpError 500 msgNoMapObj)

/- ----- helper constructors for concrete payloads ----- -/

/-- Upstream payload with `result.path` holding the given route list. -/
def mkData (ps : List PyVal) : PyVal :=
  PyVal.dict [("result".data, PyVal.dict [("path".data, PyVal.list ps)])]

/-- A route with a single leg of the given trafficType and lane list. -/
def mkPath1Leg (ttype : Int) (ls : List PyVal) : PyVal :=
  PyVal.dict [("subPath".data,
    PyVal.list [PyVal.dict [("trafficType".data, PyVal.int ttype),
                            ("lane".data, PyVal.list ls)]])]

/- ===== proof infrastructure ===== -/

theorem ok_bind {ε α β : Type} (a : α) (f : α → Except ε β) :
    (Except.ok a >>= f : Except ε β) = f a := rfl

theorem error_bind {ε α β : Type} (e : ε) (f : α → Except ε β) :
    (Except.error e >>= f : Except ε β) = Except.error e := rfl

theorem pure_ok {ε α : Type} (a : α) : (pure a : Except ε α) = Except.ok a := rfl

theorem pure_bind {ε α β : Type} (a : α) (f : α → Except ε β) :
    ((pure a : Except ε α) >>= f) = f a := rfl

theorem exBind_ok_iff {ε α β : Type} {x : Except ε α} {f : α → Except ε β} {b : β} :
    (x >>= f) = Except.ok b ↔ ∃ a, x = Except.ok a ∧ f a = Except.ok b := by
  cases x with
  | ok a => simp [ok_bind]
  | error e => simp [error_bind]

instance {ε α : Type} [DecidableEq ε] [DecidableEq α] : DecidableEq (Except ε α) :=
  fun x y =>
    match x, y with
    | Except.ok a, Except.ok b =>
      if h : a = b then isTrue (by rw [h])
      else isFalse (by intro hh; injection hh; exact h (by assumption))
    | Except.error e, Except.error e2 =>
      if h : e = e2 then isTrue (by rw [h])
      else isFalse (by intro hh; injection hh; exact h (by assumption))
    | Except.ok _, Except.error _ => isFalse (by intro hh; injection hh)
    | Except.error _, Except.ok _ => isFalse (by intro hh; injection hh)

/-- `Except.isOk` as a plain Bool. -/
def isOkE {ε α : Type} : Except ε α → Bool
  | Except.ok _ => true
  | Except.error _ => false

theorem isOkE_iff {ε α : Type} {x : Except ε α} :
    isOkE x = true ↔ ∃ a, x = Except.ok a := by
  cases x <;> simp [isOkE]

/- ===== normalizer facts (claims C7, C8) ===== -/

/-- The character set the spec says `norm` removes (besides trimming):
parentheses, the space character, and the route-number suffix `번`. -/
def removable (c : Char) : Bool := c == '(' || c == ')' || c == ' ' || c == '번'

/-- The normalizer as the (amended) spec words it: trim, then drop every
removable character in one pass. -/
def normSpec (s : List Char) : List Char :=
  (pyStrip s).filter (fun c => !removable c)

theorem dropWhile_eq_self_of_all {p : Char → Bool} :
    ∀ {l : List Char}, (∀ c ∈ l, p c = false) → l.dropWhile p = l
  | [], _ => rfl
  | a :: l, h => by
    have ha := h a (by simp)
    simp [List.dropWhile_cons, ha]

theorem mem_of_mem_dropWhile {p : Char → Bool} :
    ∀ {l : List Char} {c : Char}, c ∈ l.dropWhile p → c ∈ l
  | [], c, h => h
  | a :: l, c, h => by
    by_cases hp : p a
    · simp only [List.dropWhile_cons, hp, if_pos] at h
      exact List.mem_cons_of_mem a (mem_of_mem_dropWhile h)
    · simpa [List.dropWhile_cons, hp] using h

theorem mem_of_mem_pyStrip {s : List Char} {c : Char} (h : c ∈ pyStrip s) : c ∈ s := by
  unfold pyStrip at h
  rw [List.mem_reverse] at h
  have h2 := mem_of_mem_dropWhile h
  rw [List.mem_reverse] at h2
  exact mem_of_mem_dropWhile h2

theorem pyStrip_eq_self_of_no_space {l : List Char}
    (h : ∀ c ∈ l, pyIsSpace c = false) : pyStrip l = l := by
  unfold pyStrip
  rw [dropWhile_eq_self_of_all h]
  rw [dropWhile_eq_self_of_all (by intro c hc; exact h c (List.mem_reverse.mp hc))]
  exact List.reverse_reverse l

theorem filter_eq_self_of_all {p : Char → Bool} :
    ∀ {l : List Char}, (∀ c ∈ l, p c = true) → l.filter p = l
  | [], _ => rfl
  | a :: l, h => by
    have ha := h a (by simp)
    simp only [List.filter_cons, ha, if_pos]
    rw [filter_eq_self_of_all (fun c hc => h c (List.mem_cons_of_mem a hc))]

/-- C7 (counterexample): the claim says `norm` removes interior
whitespace; on input "a⟨TAB⟩b" the code removes nothing (only the space
character is replaced, and strip only trims the ends), so the interior
tab survives. -/
theorem norm_keeps_interior_tab :
    norm ('a' :: '\t' :: 'b' :: []) = 'a' :: '\t' :: 'b' :: [] ∧
    ('a' :: '\t' :: 'b' :: []) ≠ ('a' :: 'b' :: []) := by
  exact ⟨rfl, by decide⟩

/-- The four sequential `replace` calls of `norm` amount to one
trim-and-filter pass over the removable-character set. -/
theorem norm_spec_eq (s : List Char) : norm s = normSpec s := by
  by_cases hs : s = []
  · subst hs; rfl
  · simp only [norm, normSpec, hs, if_false, ite_false]
    rw [List.filter_filter, List.filter_filter, List.filter_filter]
    congr 1
    funext c
    simp [removable, Bool.not_or, bne, Bool.and_assoc, Bool.and_comm,
      Bool.and_left_comm]

/-- C7 (amended): `norm` yields "" on null/empty input, trims
leading/trailing whitespace, and removes exactly the characters
"(", ")", the space character, and "번" — other interior whitespace is
kept. Stated as: `norm` equals the one-pass trim-and-filter `normSpec`,
together with the spec's worked example and the null/empty cases. -/
theorem norm_eq_normSpec :
    (∀ s : List Char, norm s = normSpec s) ∧
    norm " 401(간선) ".data = "401간선".data ∧
    normOpt Option.none = [] ∧ norm [] = [] :=
  ⟨norm_spec_eq, rfl, rfl, rfl⟩

/-- C8 (counterexample): `norm` is not idempotent. On "(⟨TAB⟩)" the
first pass strips nothing (the ends are parentheses) and removes the
parentheses, leaving "⟨TAB⟩"; the second pass strips that tab away. -/
theorem norm_not_idempotent :
    norm (norm ('(' :: '\t' :: ')' :: [])) ≠ norm ('(' :: '\t' :: ')' :: []) := by
  decide

/-- C8 (amended): `norm` is a pure total function (it is a Lean
function), yields "" on null input, and is idempotent on every string
whose whitespace characters are all the plain space — the failure
requires non-space whitespace next to a removed character. -/
theorem norm_idempotent_space_only :
    (∀ s : List Char, (∀ c ∈ s, pyIsSpace c = true → c = ' ') →
      norm (norm s) = norm s) ∧
    normOpt Option.none = [] := by
  refine ⟨?_, rfl⟩
  intro s hws
  by_cases hs : s = []
  · subst hs; rfl
  · have hfacts : ∀ c ∈ norm s,
        c ∈ pyStrip s ∧ c ≠ '(' ∧ c ≠ ')' ∧ c ≠ ' ' ∧ c ≠ '번' := by
      intro c hc
      simp only [norm, hs, if_false, ite_false, List.mem_filter, bne_iff_ne] at hc
      tauto
    have hnospace : ∀ c ∈ norm s, pyIsSpace c = false := by
      intro c hc
      rcases hfacts c hc with ⟨hcs, _, _, hsp, _⟩
      cases hb : pyIsSpace c with
      | false => rfl
      | true => exact absurd (hws c (mem_of_mem_pyStrip hcs) hb) hsp
    rw [norm_spec_eq (norm s)]
    unfold normSpec
    rw [pyStrip_eq_self_of_no_space hnospace]
    apply filter_eq_self_of_all
    intro c hc
    rcases hfacts c hc with ⟨_, h1, h2, h3, h4⟩
    simp [removable, beq_iff_eq, h1, h2, h3, h4]

/-- C8 amended-theorem witness: the idempotence hypothesis holds of the
spec's own example string, whose only whitespace is the space char. -/
theorem norm_idempotent_space_only_witness :
    norm (norm " 401(간선) ".data) = norm " 401(간선) ".data :=
  norm_idempotent_space_only.1 " 401(간선) ".data (by decide)

/- ===== scorer facts (claims C1, C2) ===== -/

/-- Whether one lane descriptor matches the normalized ride hint:
its candidate list contains a name whose normalization has the hint as
substring (false when building the candidate list would raise). -/
def laneHitB (ttype : PyVal) (rn : List Char) (lane : PyVal) : Bool :=
  match laneCands ttype lane with
  | Except.ok cs => laneHit rn cs
  | Except.error _ => false

/-- A route with a single leg of the given trafficType and lane list. -/
def mkLeg (t : Int) (ls : List PyVal) : PyVal :=
  PyVal.dict [("trafficType".data, PyVal.int t), ("lane".data, PyVal.list ls)]

/-- The lane loop of lines 108-128 adds 10 once per lane whose candidate
list has a match. -/
theorem lanesFold (ttype : PyVal) (rn : List Char) :
    ∀ (ls : List PyVal) (acc : Int),
      (∀ l ∈ ls, isOkE (laneCands ttype l) = true) →
      List.foldlM
        (fun a lane => do
          let cands ← laneCands ttype lane
          Except.ok (a + if laneHit rn cands then (10 : Int) else 0))
        acc ls
      = Except.ok (acc + 10 * (List.countP (laneHitB ttype rn) ls))
  | [], acc, _ => by simp [List.foldlM_nil, pure_ok]
  | l :: ls, acc, h => by
    obtain ⟨cs, hcs⟩ := isOkE_iff.mp (h l (by simp))
    simp only [List.foldlM_cons, hcs, ok_bind]
    rw [lanesFold ttype rn ls _ (fun c hc => h c (List.mem_cons_of_mem l hc))]
    have hhit : laneHitB ttype rn l = laneHit rn cs := by
      simp [laneHitB, hcs]
    rw [List.countP_cons, hhit]
    cases hm : laneHit rn cs
    · simp [hm]
    · simp [hm]
      ring

theorem iter_list_guard (ls : List PyVal) :
    pyIter (if pyTruthy (PyVal.list ls) then PyVal.list ls else PyVal.list []) =
      Except.ok ls := by
  cases ls <;> rfl

theorem normNil : norm ([] : List Char) = [] := rfl

/-- C1 (counterexample): a single subway leg carrying two lanes that both
match the ride hint "22" scores 20, not the 10 the claim predicts for one
matching leg: the `break` of line 128 leaves only the candidate loop, not
the lane loop, so the leg is counted once per matching lane. -/
theorem leg_with_two_matching_lanes_scores_twice :
    score_path_for_ride
      (mkPath1Leg 1 [PyVal.dict [("name".data, PyVal.str "22".data)],
                     PyVal.dict [("name".data, PyVal.str "22".data)]])
      "22".data [] [] = Except.ok (20, 1000000000) ∧
    ((20 : Int), (1000000000 : Int)) ≠ ((10 : Int), (1000000000 : Int)) :=
  ⟨rfl, by decide⟩

/-- C1 (amended): for a non-empty normalized ride hint, +10 is added once
per *lane*: on the first substring match among a lane's candidate names
the scan stops within that lane's candidate list and moves to the next
lane, so a route with one leg of trafficType 1 or 2 scores exactly
10 times the number of its lanes having a matching candidate name. -/
theorem ride_score_counts_matching_lanes (t : Int) (ht : t = 1 ∨ t = 2)
    (ls : List PyVal) (r : List Char) (hr : norm r ≠ [])
    (hok : ∀ l ∈ ls, isOkE (laneCands (PyVal.int t) l) = true) :
    score_path_for_ride (mkPath1Leg t ls) r [] [] =
      Except.ok ((10 * (List.countP (laneHitB (PyVal.int t) (norm r)) ls) : Int),
        1000000000) := by
  have h1 : pyGetD (mkPath1Leg t ls) "info".data (PyVal.dict []) =
      Except.ok (PyVal.dict []) := rfl
  have h2 : pyGetD (PyVal.dict []) "totalTime".data PyVal.none =
      Except.ok PyVal.none := rfl
  have h3 : pyGetD (mkPath1Leg t ls) "subPath".data (PyVal.list []) =
      Except.ok (PyVal.list [mkLeg t ls]) := rfl
  have h4 : pyGetD (mkLeg t ls) "trafficType".data PyVal.none =
      Except.ok (PyVal.int t) := rfl
  have h5 : pyGetD (mkLeg t ls) "lane".data (PyVal.list []) =
      Except.ok (PyVal.list ls) := rfl
  have h6 : stationNames [mkLeg t ls] = Except.ok [] := rfl
  have h7 : pyToInt (if pyTruthy PyVal.none then PyVal.none
      else PyVal.int 1000000000) = Except.ok 1000000000 := rfl
  have ht2 : (pyEqInt (PyVal.int t) 1 ∨ pyEqInt (PyVal.int t) 2) := by
    rcases ht with h | h <;> subst h <;> simp [pyEqInt]
  simp only [score_path_for_ride, rideScore, rideScoreLeg, h1, h2, h3, h4,
    h5, h6, h7, ok_bind, pure_bind, pure_ok, iter_list_guard,
    List.foldlM_cons, List.foldlM_nil, if_pos ht2]
  rw [lanesFold (PyVal.int t) (norm r) ls 0 hok]
  simp [hr, normNil, ok_bind]

/-- C1 amended-theorem witness: a bus leg with one matching lane
(busNo "401번") scores 10 · 1 with ride hint "401". -/
theorem ride_score_counts_matching_lanes_witness :
    score_path_for_ride
      (mkPath1Leg 2 [PyVal.dict [("busNo".data, PyVal.str "401번".data)]])
      "401".data [] [] =
      Except.ok ((10 * (List.countP
        (laneHitB (PyVal.int 2) (norm "401".data))
        [PyVal.dict [("busNo".data, PyVal.str "401번".data)]]) : Int),
        1000000000) :=
  ride_score_counts_matching_lanes 2 (Or.inr rfl)
    [PyVal.dict [("busNo".data, PyVal.str "401번".data)]]
    "401".data (by decide) (by decide)

/-- A route whose `info.totalTime` is the given value. -/
def mkInfoPath (v : PyVal) : PyVal :=
  PyVal.dict [("info".data, PyVal.dict [("totalTime".data, v)])]

/-- C2 (counterexample): a route whose `info.totalTime` is present and is
the integer 0 gets the sentinel 10^9 as its returned totalTime, not 0:
`info.get("totalTime") or 10**9` discards every falsy value, 0 included. -/
theorem totalTime_zero_gets_sentinel :
    score_path_for_ride (mkInfoPath (PyVal.int 0)) [] [] [] =
      Except.ok (0, 1000000000) ∧
    (1000000000 : Int) ≠ 0 :=
  ⟨rfl, by decide⟩

/-- C2 (amended): the returned totalTime equals `route.info.totalTime`
whenever that value is present and truthy (a nonzero integer); every
falsy value — absent, None, or the integer 0 — yields the sentinel 10^9;
and a truthy value that is not parseable as an integer (e.g. the string
"abc") makes the Scorer fail with a ValueError rather than return. -/
theorem totalTime_truthy_or_sentinel :
    (∀ n : Int, score_path_for_ride (mkInfoPath (PyVal.int n)) [] [] [] =
      Except.ok (0, if n = 0 then 1000000000 else n)) ∧
    score_path_for_ride (PyVal.dict []) [] [] [] =
      Except.ok (0, 1000000000) ∧
    score_path_for_ride (mkInfoPath PyVal.none) [] [] [] =
      Except.ok (0, 1000000000) ∧
    score_path_for_ride (mkInfoPath (PyVal.str "abc".data)) [] [] [] =
      Except.error PyErr.valueError := by
  refine ⟨?_, rfl, rfl, rfl⟩
  intro n
  by_cases hn : n = 0
  · subst hn; rfl
  · have h1 : pyGetD (mkInfoPath (PyVal.int n)) "info".data (PyVal.dict []) =
        Except.ok (PyVal.dict [("totalTime".data, PyVal.int n)]) := rfl
    have h2 : pyGetD (PyVal.dict [("totalTime".data, PyVal.int n)])
        "totalTime".data PyVal.none = Except.ok (PyVal.int n) := rfl
    have h3 : pyGetD (mkInfoPath (PyVal.int n)) "subPath".data (PyVal.list []) =
        Except.ok (PyVal.list []) := rfl
    have htr : pyTruthy (PyVal.int n) = true := by simp [pyTruthy, hn]
    have h4 : stationNames [] = Except.ok [] := rfl
    have h5c : (if pyTruthy (PyVal.int n) then PyVal.int n
        else PyVal.int 1000000000) = PyVal.int n := by rw [htr]; simp
    have h6c : pyToInt (PyVal.int n) = Except.ok n := rfl
    rw [if_neg hn]
    simp only [score_path_for_ride, h1, h2, h3, h4, h5c, h6c, ok_bind,
      pure_bind, pure_ok, iter_list_guard]
    simp [normNil]

/- ===== selector facts (claims C3, C4, C5, C6, C9) ===== -/

/-- Scored triple (score, totalTime, route), as tracked by the loop. -/
def trip (f : PyVal → Int × Int) (q : PyVal) : Int × Int × PyVal :=
  ((f q).1, (f q).2, q)

/-- The replacement rule of lines 176-179, as the spec words it: the
candidate replaces the current best iff its score is strictly greater,
or the scores tie and its totalTime is strictly smaller. -/
def replaceBest (b c : Int × Int × PyVal) : Int × Int × PyVal :=
  if c.1 > b.1 ∨ (c.1 = b.1 ∧ c.2.1 < b.2.1) then c else b

theorem runBest_fold (r b d : List Char) (f : PyVal → Int × Int) :
    ∀ (ps : List PyVal) (b0 : Int × Int × PyVal),
      (∀ q ∈ ps, score_path_for_ride q r b d = Except.ok (f q)) →
      List.foldlM
        (fun best p => do
          let st ← score_path_for_ride p r b d
          match best with
          | Option.none => pure (Option.some (st.1, st.2, p))
          | Option.some bt =>
            if st.1 > bt.1 ∨ (st.1 = bt.1 ∧ st.2 < bt.2.1) then
              pure (Option.some (st.1, st.2, p))
            else pure (Option.some bt))
        (Option.some b0) ps
      = Except.ok (Option.some (List.foldl replaceBest b0 (ps.map (trip f))))
  | [], b0, _ => by simp [List.foldlM_nil, pure_ok]
  | q :: qs, b0, hf => by
    have hq := hf q (by simp)
    simp only [List.foldlM_cons, hq, ok_bind]
    by_cases hc : (f q).1 > b0.1 ∨ ((f q).1 = b0.1 ∧ (f q).2 < b0.2.1)
    · rw [if_pos hc, pure_bind,
        runBest_fold r b d f qs _ (fun x hx => hf x (List.mem_cons_of_mem q hx))]
      have hrb : replaceBest b0 (trip f q) = ((f q).1, (f q).2, q) := by
        simp only [replaceBest, trip]
        rw [if_pos hc]
      simp [List.foldl_cons, hrb]
    · rw [if_neg hc, pure_bind,
        runBest_fold r b d f qs _ (fun x hx => hf x (List.mem_cons_of_mem q hx))]
      have hrb : replaceBest b0 (trip f q) = b0 := by
        simp only [replaceBest, trip]
        rw [if_neg hc]
      simp [List.foldl_cons, hrb]

theorem runBest_cons_ok (r b d : List Char) (f : PyVal → Int × Int)
    (p : PyVal) (rest : List PyVal)
    (hf : ∀ q ∈ p :: rest, score_path_for_ride q r b d = Except.ok (f q)) :
    runBest r b d (p :: rest) =
      Except.ok (Option.some
        (List.foldl replaceBest (trip f p) (rest.map (trip f)))) := by
  have hp := hf p (by simp)
  simp only [runBest, List.foldlM_cons, hp, ok_bind]
  rw [pure_bind,
    runBest_fold r b d f rest _ (fun x hx => hf x (List.mem_cons_of_mem p hx))]
  rfl

theorem foldl_replaceBest_mem :
    ∀ (l : List (Int × Int × PyVal)) (b0 : Int × Int × PyVal),
      List.foldl replaceBest b0 l = b0 ∨ (List.foldl replaceBest b0 l) ∈ l
  | [], _ => Or.inl rfl
  | t :: l, b0 => by
    rw [List.foldl_cons]
    rcases foldl_replaceBest_mem l (replaceBest b0 t) with h | h
    · rw [h]
      unfold replaceBest
      by_cases hc : t.1 > b0.1 ∨ (t.1 = b0.1 ∧ t.2.1 < b0.2.1)
      · rw [if_pos hc]
        exact Or.inr (by simp)
      · rw [if_neg hc]
        exact Or.inl rfl
    · exact Or.inr (List.mem_cons_of_mem t h)

theorem foldl_replaceBest_fst_zero :
    ∀ (l : List (Int × Int × PyVal)) (b0 : Int × Int × PyVal),
      b0.1 = 0 → (∀ t ∈ l, t.1 = 0) → (List.foldl replaceBest b0 l).1 = 0
  | [], _, hb, _ => hb
  | t :: l, b0, hb, hl => by
    rw [List.foldl_cons]
    apply foldl_replaceBest_fst_zero l _ _
      (fun x hx => hl x (List.mem_cons_of_mem t hx))
    unfold replaceBest
    by_cases hc : t.1 > b0.1 ∨ (t.1 = b0.1 ∧ t.2.1 < b0.2.1)
    · rw [if_pos hc]
      exact hl t (by simp)
    · rw [if_neg hc]
      exact hb

theorem locate_mkData (ps : List PyVal) :
    locatePaths (mkData ps) = Option.some (PyVal.list ps) := rfl

/-- What `select_path_for_ride` returns on a non-empty located route
list with at least one hint: the best-tracking fold with first-element
initialization, subject to the zero-score fallback of lines 186-188. -/
theorem select_spec (data : PyVal) (p : PyVal) (rest : List PyVal)
    (r b d : List Char) (f : PyVal → Int × Int)
    (hl : locatePaths data = Option.some (PyVal.list (p :: rest)))
    (hh : ¬(r = [] ∧ b = [] ∧ d = []))
    (hf : ∀ q ∈ p :: rest, score_path_for_ride q r b d = Except.ok (f q)) :
    select_path_for_ride data r b d =
      Except.ok
        (if (List.foldl replaceBest (trip f p) (rest.map (trip f))).1 = 0
         then p
         else (List.foldl replaceBest (trip f p) (rest.map (trip f))).2.2) := by
  have hrb := runBest_cons_ok r b d f p rest hf
  have hit : pyIter (PyVal.list (p :: rest)) = Except.ok (p :: rest) := rfl
  have htr : pyTruthy (PyVal.list (p :: rest)) = true := by
    simp [pyTruthy]
  simp only [select_path_for_ride, hl, htr, if_true, ite_true, if_neg hh,
    hit, ok_bind, hrb]
  by_cases hz : (List.foldl replaceBest (trip f p) (rest.map (trip f))).1 = 0
  · simp [hz, pyIdx0]
  · simp [hz, pure_ok]

theorem select_empty_hints (data : PyVal) (p : PyVal) (rest : List PyVal)
    (hl : locatePaths data = Option.some (PyVal.list (p :: rest))) :
    select_path_for_ride data [] [] [] = Except.ok p ∧
      select_count data [] [] [] = Except.ok (p, 0) := by
  have htr : pyTruthy (PyVal.list (p :: rest)) = true := by
    simp [pyTruthy]
  constructor
  · simp [select_path_for_ride, hl, htr, pyIdx0]
  · simp [select_count, hl, htr, pyIdx0, ok_bind, pure_ok]

/-- The pure step the counting loop's best-tracking performs. -/
def stepBestO (bo : Option (Int × Int × PyVal)) (t : Int × Int × PyVal) :
    Option (Int × Int × PyVal) :=
  match bo with
  | Option.none => Option.some t
  | Option.some bt => Option.some (replaceBest bt t)

theorem foldl_stepBestO_some :
    ∀ (l : List (Int × Int × PyVal)) (b0 : Int × Int × PyVal),
      List.foldl stepBestO (Option.some b0) l =
        Option.some (List.foldl replaceBest b0 l)
  | [], _ => rfl
  | t :: l, b0 => by
    simp [List.foldl_cons, stepBestO, foldl_stepBestO_some l (replaceBest b0 t)]

theorem runBestN_fold (r b d : List Char) (f : PyVal → Int × Int) :
    ∀ (ps : List PyVal) (acc1 : Option (Int × Int × PyVal)) (n : Nat),
      (∀ q ∈ ps, score_path_for_ride q r b d = Except.ok (f q)) →
      List.foldlM
        (fun acc p => do
          let st ← score_path_for_ride p r b d
          let best2 :=
            match acc.1 with
            | Option.none => Option.some (st.1, st.2, p)
            | Option.some bt =>
              if st.1 > bt.1 ∨ (st.1 = bt.1 ∧ st.2 < bt.2.1) then
                Option.some (st.1, st.2, p)
              else Option.some bt
          pure (best2, acc.2 + 1))
        (acc1, n) ps
      = Except.ok (List.foldl stepBestO acc1 (ps.map (trip f)), n + ps.length)
  | [], acc1, n, _ => by simp [List.foldlM_nil, pure_ok]
  | q :: qs, acc1, n, hf => by
    have hq := hf q (by simp)
    have hrec := fun b2 m =>
      runBestN_fold r b d f qs b2 m
        (fun x hx => hf x (List.mem_cons_of_mem q hx))
    cases acc1 with
    | none =>
      simp only [List.foldlM_cons, hq, ok_bind]
      rw [pure_bind, hrec (Option.some ((f q).1, (f q).2, q)) (n + 1)]
      have hso : stepBestO Option.none (trip f q) =
          Option.some ((f q).1, (f q).2, q) := rfl
      simp [List.foldl_cons, hso]
      omega
    | some bt =>
      simp only [List.foldlM_cons, hq, ok_bind]
      by_cases hc : (f q).1 > bt.1 ∨ ((f q).1 = bt.1 ∧ (f q).2 < bt.2.1)
      · rw [if_pos hc, pure_bind,
          hrec (Option.some ((f q).1, (f q).2, q)) (n + 1)]
        have hso : stepBestO (Option.some bt) (trip f q) =
            Option.some ((f q).1, (f q).2, q) := by
          simp only [stepBestO, replaceBest, trip]
          rw [if_pos hc]
        simp [List.foldl_cons, hso]
        omega
      · rw [if_neg hc, pure_bind, hrec (Option.some bt) (n + 1)]
        have hso : stepBestO (Option.some bt) (trip f q) =
            Option.some bt := by
          simp only [stepBestO, replaceBest, trip]
          rw [if_neg hc]
        simp [List.foldl_cons, hso]
        omega

theorem runBestN_cons_ok (r b d : List Char) (f : PyVal → Int × Int)
    (p : PyVal) (rest : List PyVal)
    (hf : ∀ q ∈ p :: rest, score_path_for_ride q r b d = Except.ok (f q)) :
    runBestN r b d (p :: rest) =
      Except.ok (Option.some
        (List.foldl replaceBest (trip f p) (rest.map (trip f))),
        (p :: rest).length) := by
  have hp := hf p (by simp)
  simp only [runBestN, List.foldlM_cons, hp, ok_bind]
  rw [pure_bind,
    runBestN_fold r b d f rest _ 1
      (fun x hx => hf x (List.mem_cons_of_mem p hx))]
  rw [foldl_stepBestO_some]
  simp [Nat.add_comm 1 rest.length]
  rfl

/-- Counting analogue of `select_spec`: with hints present, the Scorer
runs once per route. -/
theorem count_spec (data : PyVal) (p : PyVal) (rest : List PyVal)
    (r b d : List Char) (f : PyVal → Int × Int)
    (hl : locatePaths data = Option.some (PyVal.list (p :: rest)))
    (hh : ¬(r = [] ∧ b = [] ∧ d = []))
    (hf : ∀ q ∈ p :: rest, score_path_for_ride q r b d = Except.ok (f q)) :
    select_count data r b d =
      Except.ok
        ((if (List.foldl replaceBest (trip f p) (rest.map (trip f))).1 = 0
          then p
          else (List.foldl replaceBest (trip f p) (rest.map (trip f))).2.2),
         (p :: rest).length) := by
  have hrb := runBestN_cons_ok r b d f p rest hf
  have hit : pyIter (PyVal.list (p :: rest)) = Except.ok (p :: rest) := rfl
  have htr : pyTruthy (PyVal.list (p :: rest)) = true := by
    simp [pyTruthy]
  simp only [select_count, hl, htr, if_true, ite_true, if_neg hh,
    hit, ok_bind, hrb]
  by_cases hz : (List.foldl replaceBest (trip f p) (rest.map (trip f))).1 = 0
  · simp [hz, pyIdx0, ok_bind, pure_ok]
  · simp [hz, pure_ok]

/-- When all three hints normalize to "", the Scorer never adds anything:
any successful score has first component 0. -/
theorem score_fst_zero (q : PyVal) (r b d : List Char) (st : Int × Int)
    (hr : norm r = []) (hb : norm b = []) (hd : norm d = [])
    (h : score_path_for_ride q r b d = Except.ok st) : st.1 = 0 := by
  simp only [score_path_for_ride, hr, hb, hd, ne_eq, not_true_eq_false,
    if_false, ite_false, false_and, exBind_ok_iff, pure_ok,
    Except.ok.injEq] at h
  obtain ⟨i, _, t1, _, t2, _, sp, _, sb, _, s1, hs1, names, _, heq⟩ := h
  rw [← heq]
  simp [← hs1]

/-- A concrete route for witnesses: info.totalTime = 5, nothing else. -/
def exPath5 : PyVal := mkInfoPath (PyVal.int 5)

/-- C3: with hints present, the Selector's best-tracking is exactly the
left fold of `replaceBest` (candidate replaces best iff strictly greater
score, or equal score and strictly smaller totalTime) initialized
unconditionally with the first route's triple — subject to the code's
zero-score fallback to the first route, which for exact ties changes
nothing; in particular for two routes with equal score and equal
totalTime the earlier-listed one is returned. -/
theorem select_strict_best_tracking :
    (∀ (data p : PyVal) (rest : List PyVal) (r b d : List Char)
        (f : PyVal → Int × Int),
      locatePaths data = Option.some (PyVal.list (p :: rest)) →
      ¬(r = [] ∧ b = [] ∧ d = []) →
      (∀ q ∈ p :: rest, score_path_for_ride q r b d = Except.ok (f q)) →
      select_path_for_ride data r b d =
        Except.ok
          (if (List.foldl replaceBest (trip f p) (rest.map (trip f))).1 = 0
           then p
           else (List.foldl replaceBest (trip f p) (rest.map (trip f))).2.2)) ∧
    (∀ (p1 p2 : PyVal) (r b d : List Char) (sc tt : Int),
      ¬(r = [] ∧ b = [] ∧ d = []) →
      score_path_for_ride p1 r b d = Except.ok (sc, tt) →
      score_path_for_ride p2 r b d = Except.ok (sc, tt) →
      select_path_for_ride (mkData [p1, p2]) r b d = Except.ok p1) := by
  constructor
  · intro data p rest r b d f hl hh hf
    exact select_spec data p rest r b d f hl hh hf
  · intro p1 p2 r b d sc tt hh hp1 hp2
    have hf : ∀ x ∈ [p1, p2], score_path_for_ride x r b d =
        Except.ok ((fun _ => (sc, tt)) x) := by
      intro x hx
      rcases List.mem_cons.mp hx with h | h
      · subst h; exact hp1
      · have hx2 : x = p2 := by simpa using h
        subst hx2; exact hp2
    have hsel := select_spec (mkData [p1, p2]) p1 [p2] r b d
      (fun _ => (sc, tt)) (locate_mkData [p1, p2]) hh hf
    rw [hsel]
    have hfold : List.foldl replaceBest (trip (fun _ => (sc, tt)) p1)
        ([p2].map (trip (fun _ => (sc, tt)))) = (sc, tt, p1) := by
      simp [List.foldl_cons, List.foldl_nil, trip, replaceBest]
    rw [hfold]
    by_cases hz : ((sc, tt, p1) : Int × Int × PyVal).1 = 0
    · rw [if_pos hz]
    · rw [if_neg hz]

/-- C3 witness: two identical routes (equal score 0, equal totalTime 5)
with a hint present — the earlier-listed route is returned. -/
theorem select_strict_best_tracking_witness :
    select_path_for_ride (mkData [exPath5, exPath5]) ('x' :: []) [] [] =
      Except.ok exPath5 :=
  select_strict_best_tracking.2 exPath5 exPath5 ('x' :: []) [] [] 0 5
    (by decide) rfl rfl

/-- C4: with hints present, if every route scores 0 (equivalently the
maximum score is 0, since scores are sums of nonnegative bonuses), the
Selector returns the first route — the same result as with all hints
empty. -/
theorem zero_max_score_falls_back_to_first :
    ∀ (data p : PyVal) (rest : List PyVal) (r b d : List Char)
      (f : PyVal → Int × Int),
      locatePaths data = Option.some (PyVal.list (p :: rest)) →
      ¬(r = [] ∧ b = [] ∧ d = []) →
      (∀ q ∈ p :: rest, score_path_for_ride q r b d = Except.ok (f q)) →
      (∀ q ∈ p :: rest, (f q).1 = 0) →
      select_path_for_ride data r b d = Except.ok p ∧
        select_path_for_ride data [] [] [] = Except.ok p := by
  intro data p rest r b d f hl hh hf hz
  constructor
  · rw [select_spec data p rest r b d f hl hh hf]
    have h0 : (List.foldl replaceBest (trip f p) (rest.map (trip f))).1 = 0 := by
      apply foldl_replaceBest_fst_zero
      · exact hz p (by simp)
      · intro t ht
        rcases List.mem_map.mp ht with ⟨x, hx, rfl⟩
        exact hz x (List.mem_cons_of_mem p hx)
    rw [if_pos h0]
  · exact (select_empty_hints data p rest hl).1

/-- C4 witness: a ride hint matching nothing over two routes returns the
first route, as does the empty-hint call. -/
theorem zero_max_score_falls_back_to_first_witness :
    select_path_for_ride (mkData [exPath5, exPath5]) ('z' :: 'z' :: []) [] [] =
      Except.ok exPath5 ∧
    select_path_for_ride (mkData [exPath5, exPath5]) [] [] [] =
      Except.ok exPath5 :=
  zero_max_score_falls_back_to_first (mkData [exPath5, exPath5]) exPath5
    [exPath5] ('z' :: 'z' :: []) [] [] (fun _ => (0, 5)) rfl (by decide)
    (by decide) (by decide)

/-- C6: with all three hints empty, the Selector returns the first route
of the located list and the Scorer is invoked zero times. -/
theorem empty_hints_shortcut :
    ∀ (data p : PyVal) (rest : List PyVal),
      locatePaths data = Option.some (PyVal.list (p :: rest)) →
      select_path_for_ride data [] [] [] = Except.ok p ∧
        select_count data [] [] [] = Except.ok (p, 0) :=
  fun data p rest hl => select_empty_hints data p rest hl

/-- C6 witness. -/
theorem empty_hints_shortcut_witness :
    select_path_for_ride (mkData [exPath5]) [] [] [] = Except.ok exPath5 ∧
      select_count (mkData [exPath5]) [] [] [] = Except.ok (exPath5, 0) :=
  empty_hints_shortcut (mkData [exPath5]) exPath5 [] rfl

/-- C9: if every hint normalizes to "" but at least one raw hint is
non-empty, the shortcut is not taken — the Scorer runs once per route —
yet every score is 0, so the zero-score fallback returns the first
route. -/
theorem blank_hints_fall_back_to_first :
    ∀ (data p : PyVal) (rest : List PyVal) (r b d : List Char)
      (f : PyVal → Int × Int),
      locatePaths data = Option.some (PyVal.list (p :: rest)) →
      norm r = [] → norm b = [] → norm d = [] →
      ¬(r = [] ∧ b = [] ∧ d = []) →
      (∀ q ∈ p :: rest, score_path_for_ride q r b d = Except.ok (f q)) →
      select_path_for_ride data r b d = Except.ok p ∧
        select_count data r b d = Except.ok (p, (p :: rest).length) := by
  intro data p rest r b d f hl hr hb hd hh hf
  have hz : ∀ q ∈ p :: rest, (f q).1 = 0 := fun q hq =>
    score_fst_zero q r b d (f q) hr hb hd (hf q hq)
  have h0 : (List.foldl replaceBest (trip f p) (rest.map (trip f))).1 = 0 := by
    apply foldl_replaceBest_fst_zero
    · exact hz p (by simp)
    · intro t ht
      rcases List.mem_map.mp ht with ⟨x, hx, rfl⟩
      exact hz x (List.mem_cons_of_mem p hx)
  constructor
  · rw [select_spec data p rest r b d f hl hh hf, if_pos h0]
  · rw [count_spec data p rest r b d f hl hh hf, if_pos h0]

/-- C9 witness: ride hint " " (whitespace only) normalizes to "", the
Scorer runs on both routes, and the first route is returned. -/
theorem blank_hints_fall_back_to_first_witness :
    select_path_for_ride (mkData [exPath5, exPath5]) (' ' :: []) [] [] =
      Except.ok exPath5 ∧
    select_count (mkData [exPath5, exPath5]) (' ' :: []) [] [] =
      Except.ok (exPath5, 2) :=
  blank_hints_fall_back_to_first (mkData [exPath5, exPath5]) exPath5
    [exPath5] (' ' :: []) [] [] (fun _ => (0, 5)) rfl rfl rfl rfl
    (by decide) (by decide)

def getOk : Except PyErr (Int × Int) → Int × Int
  | Except.ok a => a
  | Except.error _ => (0, 0)

/-- C5: over payloads whose located route-list field (when present) is a
list of scoreable routes, the Selector fails with status 500 (malformed
upstream response) exactly when the list cannot be located, fails with
status 404 (no route found) exactly when the located list is empty, and
otherwise returns a member of the list. -/
theorem select_error_conditions :
    ∀ (data : PyVal) (r b d : List Char),
      (∀ v, locatePaths data = Option.some v → ∃ l, v = PyVal.list l) →
      (∀ l, locatePaths data = Option.some (PyVal.list l) →
        ∀ q ∈ l, isOkE (score_path_for_ride q r b d) = true) →
      ((select_path_for_ride data r b d =
          Except.error (PyErr.httpError 500 msgMalformed)) ↔
        locatePaths data = Option.none) ∧
      ((select_path_for_ride data r b d =
          Except.error (PyErr.httpError 404 msgNoRoute)) ↔
        locatePaths data = Option.some (PyVal.list [])) ∧
      (∀ l, locatePaths data = Option.some (PyVal.list l) → l ≠ [] →
        ∃ q ∈ l, select_path_for_ride data r b d = Except.ok q) := by
  intro data r b d h1 h2
  cases hloc : locatePaths data with
  | none =>
    have hsel : select_path_for_ride data r b d =
        Except.error (PyErr.httpError 500 msgMalformed) := by
      simp [select_path_for_ride, hloc]
    refine ⟨by simp [hsel, hloc], ?_, ?_⟩
    · rw [hsel]
      constructor
      · intro hcontra
        simp [msgMalformed, msgNoRoute] at hcontra
      · intro hcontra
        simp at hcontra
    · intro l hl
      simp at hl
  | some v =>
    obtain ⟨l, rfl⟩ := h1 v hloc
    cases l with
    | nil =>
      have hsel : select_path_for_ride data r b d =
          Except.error (PyErr.httpError 404 msgNoRoute) := by
        simp [select_path_for_ride, hloc, pyTruthy]
      refine ⟨?_, by simp [hsel, hloc], ?_⟩
      · rw [hsel]
        constructor
        · intro hcontra
          simp [msgMalformed, msgNoRoute] at hcontra
        · intro hcontra
          simp at hcontra
      · intro l hl hne
        simp at hl
        subst hl
        exact absurd rfl hne
    | cons p rest =>
      have hex : ∃ q ∈ p :: rest,
          select_path_for_ride data r b d = Except.ok q := by
        by_cases hemp : (r = [] ∧ b = [] ∧ d = [])
        · obtain ⟨hr0, hb0, hd0⟩ := hemp
          subst hr0; subst hb0; subst hd0
          exact ⟨p, by simp, (select_empty_hints data p rest hloc).1⟩
        · have hok := h2 (p :: rest) hloc
          have hf : ∀ q ∈ p :: rest, score_path_for_ride q r b d =
              Except.ok (getOk (score_path_for_ride q r b d)) := by
            intro q hq
            obtain ⟨a, ha⟩ := isOkE_iff.mp (hok q hq)
            rw [ha]
            rfl
          have hsel := select_spec data p rest r b d
            (fun q => getOk (score_path_for_ride q r b d)) hloc hemp hf
          by_cases hz : (List.foldl replaceBest
              (trip (fun q => getOk (score_path_for_ride q r b d)) p)
              (rest.map (trip (fun q =>
                getOk (score_path_for_ride q r b d))))).1 = 0
          · rw [if_pos hz] at hsel
            exact ⟨p, by simp, hsel⟩
          · rw [if_neg hz] at hsel
            rcases foldl_replaceBest_mem
                (rest.map (trip (fun q =>
                  getOk (score_path_for_ride q r b d))))
                (trip (fun q => getOk (score_path_for_ride q r b d)) p)
              with hm | hm
            · refine ⟨p, by simp, ?_⟩
              rw [hsel, hm]
              rfl
            · rcases List.mem_map.mp hm with ⟨x, hx, hxe⟩
              refine ⟨x, List.mem_cons_of_mem p hx, ?_⟩
              rw [hsel, ← hxe]
              rfl
      obtain ⟨qq, hqq, hsel⟩ := hex
      refine ⟨?_, ?_, ?_⟩
      · rw [hsel]
        constructor
        · intro hcontra
          simp at hcontra
        · intro hcontra
          simp at hcontra
      · rw [hsel]
        constructor
        · intro hcontra
          simp at hcontra
        · intro hcontra
          simp at hcontra
      · intro l hl hne
        simp at hl
        subst hl
        exact ⟨qq, hqq, hsel⟩

/-- C5 witness: a payload with no dict structure at all cannot locate the
route list, and the Selector fails with the status-500 malformed
condition. -/
theorem select_error_conditions_witness :
    select_path_for_ride PyVal.none [] [] [] =
      Except.error (PyErr.httpError 500 msgMalformed) :=
  ((select_error_conditions PyVal.none [] [] []
      (fun v hv => by simp [locatePaths, pySub] at hv)
      (fun l hl => by simp [locatePaths, pySub] at hl)).1).mpr rfl

/-- C10: `get_map_obj`'s extraction step fails with status 500 exactly
when the winning route's `info.mapObj` is falsy — absent, None, or a
present-but-empty string — and returns the value unchanged otherwise. -/
theorem mapObj_falsy_fails :
    ∀ (xs ys : List (List Char × PyVal)),
      (List.lookup "info".data xs).getD (PyVal.dict []) = PyVal.dict ys →
      ((pyTruthy ((List.lookup "mapObj".data ys).getD PyVal.none) = false →
        extract_map_obj (PyVal.dict xs) =
          Except.error (PyErr.httpError 500 msgNoMapObj)) ∧
       (pyTruthy ((List.lookup "mapObj".data ys).getD PyVal.none) = true →
        extract_map_obj (PyVal.dict xs) =
          Except.ok ((List.lookup "mapObj".data ys).getD PyVal.none))) := by
  intro xs ys hi
  have h1 : pyGetD (PyVal.dict xs) "info".data (PyVal.dict []) =
      Except.ok (PyVal.dict ys) := by
    simp [pyGetD, hi]
  have h2 : pyGetD (PyVal.dict ys) "mapObj".data PyVal.none =
      Except.ok ((List.lookup "mapObj".data ys).getD PyVal.none) := by
    simp [pyGetD]
  constructor
  · intro hft
    simp [extract_map_obj, h1, h2, ok_bind, pure_ok, hft]
  · intro hft
    simp [extract_map_obj, h1, h2, ok_bind, pure_ok, hft]

/-- C10 witness: a present-but-empty mapObj string is falsy, so the
extraction fails with the status-500 missing-mapObj condition. -/
theorem mapObj_falsy_fails_witness :
    extract_map_obj (PyVal.dict [("info".data,
      PyVal.dict [("mapObj".data, PyVal.str [])])]) =
      Except.error (PyErr.httpError 500 msgNoMapObj) :=
  (mapObj_falsy_fails
    [("info".data, PyVal.dict [("mapObj".data, PyVal.str [])])]
    [("mapObj".data, PyVal.str [])] rfl).1 rfl

end MapDemo
